import Mathlib

/-!
Shallow embedding of the `ln-visualizer` repository (light-novel document
parser, fixture generator, CLI scaffold) and proofs of the spec claims.

Python strings are modelled as `List Char` (ASCII semantics for the
case-mapping and character-class helpers, which is the alphabet the parser's
patterns actually use).  External libraries (ebooklib/BeautifulSoup, PyMuPDF,
typer) are modelled at their output boundary: the parser code consumes
already-extracted text / image records, exactly the shape the source reads
off those libraries.
-/

namespace LnVis

/-! ## Python string primitives -/

/-- ASCII view of Python `str.lower` applied characterwise. -/
def pyLower (s : List Char) : List Char := s.map Char.toLower

/-- ASCII view of Python `str.upper` applied characterwise. -/
def pyUpper (s : List Char) : List Char := s.map Char.toUpper

/-- Python regex `\s` / `str.strip` whitespace (ASCII range). -/
def isPySpace (c : Char) : Bool :=
  c = ' ' || c = '\t' || c = '\n' || c = '\r' || c = '\x0b' || c = '\x0c'

/-- Python regex `\d` (ASCII digits). -/
def isPyDigit (c : Char) : Bool := '0' ≤ c && c ≤ '9'

/-- Python regex `\w` (ASCII part: letters, digits, underscore). -/
def isWordChar (c : Char) : Bool := c.isAlpha || isPyDigit c || c = '_'

/-- Python `str.strip()` (both ends, default whitespace). -/
def stripWs (l : List Char) : List Char :=
  ((l.dropWhile isPySpace).reverse.dropWhile isPySpace).reverse

/-- Case-sensitive literal prefix test. -/
def litStarts : List Char → List Char → Bool
  | [], _ => true
  | _ :: _, [] => false
  | w :: ws, h :: hs => w = h && litStarts ws hs

/-- Case-insensitive literal prefix test (re.IGNORECASE, ASCII). -/
def ciStarts : List Char → List Char → Bool
  | [], _ => true
  | _ :: _, [] => false
  | w :: ws, h :: hs => (w.toLower = h.toLower) && ciStarts ws hs

/-- Python substring containment `needle in hay`. -/
def containsSub (hay needle : List Char) : Bool :=
  match hay with
  | [] => needle.isEmpty
  | _ :: t => litStarts needle hay || containsSub t needle

/-- Length of the maximal leading run of characters satisfying `p`. -/
def runLen (p : Char → Bool) : List Char → Nat
  | [] => 0
  | c :: rest => if p c then runLen p rest + 1 else 0

/-- Number of characters up to (excluding) the next newline: the maximal span
regex `.` (no DOTALL) can cover from here. -/
def lineLen : List Char → Nat := runLen (fun c => c ≠ '\n')

/-- Numeric value of a list of ASCII digit characters (most significant first). -/
def natOfDigits (l : List Char) : Nat :=
  l.foldl (fun n c => 10 * n + (c.toNat - '0'.toNat)) 0

/-- Digit/underscore body of a Python integer literal after the first digit:
digits with single underscores strictly between digits. -/
def digitsTail : List Char → Bool
  | [] => true
  | '_' :: c :: rest => isPyDigit c && digitsTail rest
  | c :: rest => isPyDigit c && digitsTail rest

/-- Whole-list test for a Python integer-literal digit body `\d(_?\d)*`. -/
def digitsBody : List Char → Bool
  | [] => false
  | c :: rest => isPyDigit c && digitsTail rest

/-- Python `int(s)` on a string: optional surrounding whitespace, optional
sign, then a digit body (underscores allowed between digits). `none` models
`ValueError`. -/
def pyIntParse (s : String) : Option Int :=
  let t := stripWs s.data
  match t with
  | '+' :: rest =>
    if digitsBody rest then some (natOfDigits (rest.filter isPyDigit)) else none
  | '-' :: rest =>
    if digitsBody rest then some (-(natOfDigits (rest.filter isPyDigit) : Int)) else none
  | rest =>
    if digitsBody rest then some (natOfDigits (rest.filter isPyDigit)) else none

/-- Python `'\n'.join` / `'\n\n'.join`. -/
def pyJoin (sep : String) (parts : List String) : String :=
  String.intercalate sep parts

/-- Python `str.split('\n')` (keeps empty pieces, always at least one piece). -/
def splitOnNl : List Char → List (List Char)
  | [] => [[]]
  | '\n' :: rest => [] :: splitOnNl rest
  | c :: rest =>
    match splitOnNl rest with
    | [] => [[c]]
    | h :: t => (c :: h) :: t

/-! ## base64 (Python `base64.b64encode(..).decode('utf-8')`), bytes as `Nat` -/

/-- The standard base64 alphabet. -/
def b64Alphabet : List Char :=
  "ABCDEFGHIJKLMNOPQRSTUVWXYZabcdefghijklmnopqrstuvwxyz0123456789+/".data

/-- Character for a 6-bit group. -/
def b64Char (n : Nat) : Char := b64Alphabet.getD n 'A'

/-- RFC 4648 base64 of a byte list, with `=` padding. -/
def b64encodeBytes : List Nat → List Char
  | [] => []
  | [a] =>
    let a := a % 256
    [b64Char (a / 4), b64Char (a % 4 * 16), '=', '=']
  | [a, b] =>
    let a := a % 256
    let b := b % 256
    [b64Char (a / 4), b64Char (a % 4 * 16 + b / 16), b64Char (b % 16 * 4), '=']
  | a :: b :: c :: rest =>
    let a := a % 256
    let b := b % 256
    let c := c % 256
    b64Char (a / 4) :: b64Char (a % 4 * 16 + b / 16) ::
      b64Char (b % 16 * 4 + c / 64) :: b64Char (c % 64) :: b64encodeBytes rest

/-- `base64.b64encode(bytes).decode('utf-8')`. -/
def b64encode (bs : List Nat) : String := String.mk (b64encodeBytes bs)

/-! ## Data model (`FileFormat`, `ImageData`, `Chapter`, parser state) -/

/-- `FileFormat` enumeration: supported file formats for light novels. -/
inductive FileFormat where
  | txt
  | epub
  | pdf
deriving DecidableEq

/-- `FileFormat(ext)` value lookup on the str enum; `none` models `ValueError`. -/
def fileFormatOfExt (e : List Char) : Option FileFormat :=
  if e = "txt".data then some .txt
  else if e = "epub".data then some .epub
  else if e = "pdf".data then some .pdf
  else none

/-- `ImageData` pydantic model. -/
structure ImageData where
  chapter_num : Int
  image_num : Int
  data : String
  mime_type : String
deriving DecidableEq

/-- Derived `ImageData.name` property. -/
def ImageData.name (img : ImageData) : String :=
  "ch" ++ toString img.chapter_num ++ "_img" ++ toString img.image_num

/-- `Chapter` pydantic model. -/
structure Chapter where
  number : Int
  title : String
  content : String
  images : List ImageData
deriving DecidableEq

/-- The mutable fields of a `LightNovelParser` instance that `parse()`
populates. -/
structure ParserState where
  content : Option String
  chapters : List Chapter
  images : List ImageData
deriving DecidableEq

/-- State of a freshly constructed parser (`content=None`, empty lists). -/
def freshState : ParserState := ⟨none, [], []⟩

/-! ## Construction (`LightNovelParser.__init__` / `_detect_format`) -/

/-- Errors raised during construction: `FileNotFoundError` and `ValueError`. -/
inductive ParserError where
  | notFound (msg : String)
  | invalidInput (msg : String)
deriving DecidableEq

/-- Split a character list on `/` separators (keeping empty pieces). -/
def splitOnSlash : List Char → List (List Char)
  | [] => [[]]
  | '/' :: rest => [] :: splitOnSlash rest
  | c :: rest =>
    match splitOnSlash rest with
    | [] => [[c]]
    | h :: t => (c :: h) :: t

/-- `pathlib.PurePath(path).name`: the last path component, after path
normalisation drops empty and `.` components. -/
def pathNameChars (path : List Char) : List Char :=
  ((splitOnSlash path).filter (fun comp => !comp.isEmpty && comp ≠ ['.'])).getLastD []

/-- String-level view of `pathNameChars`. -/
def pathName (path : String) : String :=
  String.mk (pathNameChars path.data)

/-- `pathlib.PurePath.suffix` of a file name: from the last dot, provided the
dot is neither the first nor the last character of the name; else empty. -/
def pathSuffix (name : List Char) : List Char :=
  match name.reverse.findIdx? (· = '.') with
  | some j =>
    let i := name.length - 1 - j
    if 0 < i && i + 1 < name.length then name.drop i else []
  | none => []

/-- `self.file_path.suffix.lower().lstrip('.')` from `_detect_format`. -/
def detectFormatExt (path : String) : List Char :=
  (pyLower (pathSuffix (pathNameChars path.data))).dropWhile (· = '.')

/-- `LightNovelParser.__init__`: the existence check, then format detection.
No file content is consumed: the function takes only the path (and whether it
exists on disk) and never a file body. -/
def initParser (pathExists : Bool) (path : String) : Except ParserError FileFormat :=
  if !pathExists then
    .error (.notFound ("File not found: " ++ path))
  else
    let ext := detectFormatExt path
    match fileFormatOfExt ext with
    | some fmt => .ok fmt
    | none =>
      .error (.invalidInput ("Unsupported file format: " ++ String.mk ext ++
        ". Supported formats: txt, epub, pdf"))

/-! ## Roman-numeral-aware integer parser (`_parse_chapter_number`) -/

/-- `roman_map.get(char, 0)`. -/
def romanVal (c : Char) : Int :=
  if c = 'I' then 1
  else if c = 'V' then 5
  else if c = 'X' then 10
  else if c = 'L' then 50
  else if c = 'C' then 100
  else if c = 'D' then 500
  else if c = 'M' then 1000
  else 0

/-- The source loop `for char in reversed(num_str.upper())` carrying
`(num, prev_value)`; `foldr` visits the rightmost character first. -/
def romanLoop (l : List Char) : Int × Int :=
  l.foldr
    (fun c st =>
      let v := romanVal c
      (if v < st.2 then st.1 - v else st.1 + v, v))
    (0, 0)

/-- `LightNovelParser._parse_chapter_number`. -/
def parse_chapter_number (s : String) : Int :=
  match pyIntParse s with
  | some v => v
  | none =>
    let num := (romanLoop (pyUpper s.data)).1
    if num > 0 then num else 1

/-- Modelled from the spec's description of the Roman-numeral algorithm (for
the refinement half of claim C3): each symbol contributes its value, negated
exactly when the value is less than the value of the symbol immediately to
its right. -/
def romanSpecVal : List Char → Int
  | [] => 0
  | [c] => romanVal c
  | c :: d :: rest =>
    (if romanVal c < romanVal d then -(romanVal c) else romanVal c) +
      romanSpecVal (d :: rest)

lemma romanVal_nonneg (c : Char) : 0 ≤ romanVal c := by
  unfold romanVal
  repeat' split
  all_goals norm_num

lemma romanLoop_snd (c : Char) (l : List Char) :
    (romanLoop (c :: l)).2 = romanVal c := by
  simp [romanLoop]

lemma romanLoop_fst_eq_spec (l : List Char) :
    (romanLoop l).1 = romanSpecVal l := by
  induction l with
  | nil => simp [romanLoop, romanSpecVal]
  | cons c rest ih =>
    cases rest with
    | nil =>
      have h := romanVal_nonneg c
      simp [romanLoop, romanSpecVal]
      omega
    | cons d rest' =>
      have hsnd := romanLoop_snd d rest'
      have : romanLoop (c :: d :: rest') =
          (let v := romanVal c
           (if v < (romanLoop (d :: rest')).2 then (romanLoop (d :: rest')).1 - v
            else (romanLoop (d :: rest')).1 + v, v)) := by
        simp [romanLoop]
      rw [this]
      simp only [hsnd, ih, romanSpecVal]
      split <;> omega

/-! ## Text-format chapter detection (`_detect_chapters_in_text`)

The three `re.finditer` patterns (MULTILINE | IGNORECASE) are compiled by
hand.  Each "body" matcher answers: does the pattern (minus its `(?:^|\n)`
prefix) match at the head of this suffix, and if so how many characters does
group 0 consume (plus the numeral group for the chapter pattern)?  Greedy /
lazy quantifier interaction is resolved the way the backtracking engine
resolves it: the separator class is tried from its maximal run downwards, and
the lazy `(.+?)(?=\n|$)` necessarily extends to the next newline (or end),
since the lookahead succeeds nowhere earlier. -/

/-- Character class `[\s:.\-]`. -/
def isMarkerSep (c : Char) : Bool :=
  isPySpace c || c = ':' || c = '.' || c = '-'

/-- `[IVXLCDM]` under re.IGNORECASE. -/
def isRomanCI (c : Char) : Bool :=
  let u := c.toUpper
  u = 'I' || u = 'V' || u = 'X' || u = 'L' || u = 'C' || u = 'D' || u = 'M'

/-- Backtracking tail `[class]{k}(.+?)(?=\n|$)` for the separator class:
try `k` separators from the given count downwards (not below `minK`); the
lazy group then needs at least one non-newline character, ending at the next
newline or end of input.  Returns total characters consumed from `l`. -/
def sepRestFrom (l : List Char) (minK : Nat) : Nat → Option Nat
  | 0 =>
    if minK = 0 && 1 ≤ lineLen l then some (lineLen l) else none
  | k + 1 =>
    if k + 1 < minK then none
    else if 1 ≤ lineLen (l.drop (k + 1)) then
      some (k + 1 + lineLen (l.drop (k + 1)))
    else sepRestFrom l minK k

/-- Greedy numeral group `(\d+|[IVXLCDM]+)` followed by `[\s:.\-]*(.+?)(?=\n|$)`:
try the numeral length from its maximal run downwards.  Returns (numeral
length, total consumed). -/
def numSepRest (l2 : List Char) : Nat → Option (Nat × Nat)
  | 0 => none
  | d + 1 =>
    match sepRestFrom (l2.drop (d + 1)) 0 (runLen isMarkerSep (l2.drop (d + 1))) with
    | some t => some (d + 1, d + 1 + t)
    | none => numSepRest l2 d

/-- Body of the prologue pattern
`(Prologue|PROLOGUE|Introduction|INTRODUCTION)[\s:.\-]+(.+?)(?=\n|$)`
(IGNORECASE collapses the keyword alternation). -/
def prologueBody (l : List Char) : Option Nat :=
  let tryWord (w : List Char) : Option Nat :=
    if ciStarts w l then
      (sepRestFrom (l.drop w.length) 1 (runLen isMarkerSep (l.drop w.length))).map
        (w.length + ·)
    else none
  match tryWord "prologue".data with
  | some n => some n
  | none => tryWord "introduction".data

/-- Body of the extra pattern
`(Extra|EXTRA|Epilogue|EPILOGUE|Afterword|AFTERWORD|Bonus|BONUS)[\s:.\-]*(.+?)(?=\n|$)`. -/
def extraBody (l : List Char) : Option Nat :=
  let tryWord (w : List Char) : Option Nat :=
    if ciStarts w l then
      (sepRestFrom (l.drop w.length) 0 (runLen isMarkerSep (l.drop w.length))).map
        (w.length + ·)
    else none
  match tryWord "extra".data with
  | some n => some n
  | none =>
    match tryWord "epilogue".data with
    | some n => some n
    | none =>
      match tryWord "afterword".data with
      | some n => some n
      | none => tryWord "bonus".data

/-- Body of the chapter pattern
`(Chapter|CHAPTER|Ch\.|ch\.)\s*(\d+|[IVXLCDM]+)[\s:.\-]*(.+?)(?=\n|$)`.
Returns (consumed, numeral group).  The `\s*` run never backtracks because
`\s` is disjoint from both numeral classes; digits are tried (with all
their greedy lengths) before Roman numerals, as the alternation order
dictates. -/
def chapterBody (l : List Char) : Option (Nat × List Char) :=
  let afterKw (kwLen : Nat) : Option (Nat × List Char) :=
    let l1 := l.drop kwLen
    let s := runLen isPySpace l1
    let l2 := l1.drop s
    match numSepRest l2 (runLen isPyDigit l2) with
    | some (d, tot) => some (kwLen + s + tot, l2.take d)
    | none =>
      match numSepRest l2 (runLen isRomanCI l2) with
      | some (d, tot) => some (kwLen + s + tot, l2.take d)
      | none => none
  if ciStarts "chapter".data l then
    match afterKw 7 with
    | some r => some r
    | none => if ciStarts "ch.".data l then afterKw 3 else none
  else if ciStarts "ch.".data l then afterKw 3 else none

/-- One match produced by a finditer scan: group-0 span and the numeral
group (empty for the prologue/extra patterns). -/
structure RawMatch where
  start : Nat
  stop : Nat
  grp : List Char
deriving DecidableEq

/-- `re.finditer` driver for a pattern `(?:^|\n)<body>`: scan left to right;
at a position where `^` holds (start of input, or just after a newline —
MULTILINE) try the body directly, else try consuming a literal newline first.
After a match of length `n`, matching resumes at its end: the next `n - 1`
positions are skipped (`skip` counts them down). -/
def scanAux (body : List Char → Option (Nat × List Char)) :
    Nat → Bool → Nat → List Char → List RawMatch
  | _, _, _, [] => []
  | skip + 1, _, off, c :: rest => scanAux body skip (c = '\n') (off + 1) rest
  | 0, bol, off, c :: rest =>
    let attempt : Option (Nat × List Char) :=
      match (if bol then body (c :: rest) else none) with
      | some r => some r
      | none =>
        if c = '\n' then (body rest).map (fun p => (p.1 + 1, p.2)) else none
    match attempt with
    | some (n, g) =>
      ⟨off, off + n, g⟩ :: scanAux body (n - 1) (c = '\n') (off + 1) rest
    | none => scanAux body 0 (c = '\n') (off + 1) rest

/-- All matches of one pattern, in order of start offset. -/
def reFinditer (body : List Char → Option (Nat × List Char))
    (text : List Char) : List RawMatch :=
  scanAux body 0 true 0 text

/-- Chapter-type tag attached to each pattern. -/
inductive MarkerType where
  | prologue
  | chapter
  | extra
deriving DecidableEq

/-- A collected match with its pattern tag. -/
structure TextMatch where
  start : Nat
  stop : Nat
  typ : MarkerType
  numGrp : List Char
deriving DecidableEq

/-- Comparison used by `all_matches.sort(key=lambda m: m[0].start())`. -/
def matchLE (a b : TextMatch) : Prop := a.start ≤ b.start

instance : DecidableRel matchLE := fun a b => Nat.decLe a.start b.start

/-- All matches of the three patterns, concatenated in pattern order and then
stably sorted by start offset (Python `list.sort` is stable; `insertionSort`
realises exactly that specification). -/
def textMatches (text : List Char) : List TextMatch :=
  let m1 := (reFinditer (fun l => (prologueBody l).map (fun n => (n, []))) text).map
    (fun r => TextMatch.mk r.start r.stop .prologue [])
  let m2 := (reFinditer chapterBody text).map
    (fun r => TextMatch.mk r.start r.stop .chapter r.grp)
  let m3 := (reFinditer (fun l => (extraBody l).map (fun n => (n, []))) text).map
    (fun r => TextMatch.mk r.start r.stop .extra [])
  List.insertionSort matchLE (m1 ++ m2 ++ m3)

/-- Build one `Chapter` from a match whose text span runs to `next` (the next
match's start, or the end of the text). -/
def chapterOfMatch (text : List Char) (m : TextMatch) (next : Nat) : Chapter :=
  { number :=
      match m.typ with
      | .prologue => 0
      | .extra => -1
      | .chapter => parse_chapter_number (String.mk m.numGrp)
    title := String.mk (stripWs ((text.drop m.start).take (m.stop - m.start)))
    content := String.mk (stripWs ((text.drop m.start).take (next - m.start)))
    images := [] }

/-- `LightNovelParser._detect_chapters_in_text`: the list of chapters it
appends to `self.chapters` (none when no pattern matches). -/
def detectChaptersInText (text : List Char) : List Chapter :=
  let ms := textMatches text
  ms.zipWith (chapterOfMatch text) ((ms.map TextMatch.start).drop 1 ++ [text.length])

/-- `LightNovelParser._parse_txt`: read the file into `content`, append
detected chapters. -/
def parse_txt (fileText : String) (st : ParserState) : ParserState :=
  { st with
    content := some fileText
    chapters := st.chapters ++ detectChaptersInText fileText.data }

/-! ## Title-based chapter-number detector (`_detect_chapter_number`) -/

/-- Tail `\s*\d+` after a keyword: a maximal whitespace run then at least one
digit (the classes are disjoint, so the greedy `\s*` never backtracks);
returns the captured number. -/
def digitsAfterWs (l : List Char) : Option Nat :=
  let s := runLen isPySpace l
  let l2 := l.drop s
  let d := runLen isPyDigit l2
  if 1 ≤ d then some (natOfDigits (l2.take d)) else none

/-- Match of `(?:chapter|ch\.?)\s*(\d+)` at the head of `l` (which is already
lowercased).  When the `chapter` literal matches but the rest fails, the
`ch\.?` alternative necessarily fails too (the next character is `a`), so no
further backtracking is needed. -/
def chapterTokAt (l : List Char) : Option Nat :=
  if litStarts "chapter".data l then digitsAfterWs (l.drop 7)
  else if litStarts "ch".data l then
    match l.drop 2 with
    | '.' :: rest => digitsAfterWs rest
    | rest => digitsAfterWs rest
  else none

/-- `re.search(r'(?:chapter|ch\.?)\s*(\d+)', title_lower)`: leftmost match. -/
def searchChapterTok : List Char → Option Nat
  | [] => none
  | c :: rest =>
    match chapterTokAt (c :: rest) with
    | some n => some n
    | none => searchChapterTok rest

/-- Match of `\b(\d+)\b` at the head of `l`, given whether the preceding
character is a word character. -/
def standaloneAt (prevWord : Bool) (l : List Char) : Option Nat :=
  if prevWord then none
  else
    let d := runLen isPyDigit l
    if 1 ≤ d then
      match (l.drop d).head? with
      | some c => if isWordChar c then none else some (natOfDigits (l.take d))
      | none => some (natOfDigits (l.take d))
    else none

/-- Scanner for `re.search(r'\b(\d+)\b', title)`. -/
def searchStandaloneAux : Bool → List Char → Option Nat
  | _, [] => none
  | prevW, c :: rest =>
    match standaloneAt prevW (c :: rest) with
    | some n => some n
    | none => searchStandaloneAux (isWordChar c) rest

/-- `re.search(r'\b(\d+)\b', title)`: leftmost standalone number. -/
def searchStandaloneNum (l : List Char) : Option Nat :=
  searchStandaloneAux false l

/-- `any(word in title_lower for word in ['prologue', 'prolog', 'introduction'])`. -/
def titleHasProlog (tl : List Char) : Bool :=
  containsSub tl "prologue".data || containsSub tl "prolog".data ||
    containsSub tl "introduction".data

/-- `any(word in title_lower for word in ['extra', 'epilogue', 'afterword', 'bonus'])`. -/
def titleHasExtra (tl : List Char) : Bool :=
  containsSub tl "extra".data || containsSub tl "epilogue".data ||
    containsSub tl "afterword".data || containsSub tl "bonus".data

/-- `LightNovelParser._detect_chapter_number`. -/
def detect_chapter_number (title : String) (dflt : Int) : Int :=
  let tl := pyLower title.data
  if titleHasProlog tl then 0
  else if titleHasExtra tl then -1
  else
    match searchChapterTok tl with
    | some n => (n : Int)
    | none =>
      match searchStandaloneNum title.data with
      | some n => (n : Int)
      | none => dflt

/-! ## PDF path (`_parse_pdf`, `_is_chapter_boundary`, `_extract_title_from_text`)

PyMuPDF is external: a page is modelled by the text `page.get_text()`
returns and the list of embedded images `doc.extract_image` yields for it
(raw bytes plus the reported extension). -/

/-- One embedded image as surfaced by the PDF library. -/
structure PdfImage where
  image : List Nat
  ext : String
deriving DecidableEq

/-- One PDF page as surfaced by the PDF library. -/
structure PdfPage where
  text : String
  images : List PdfImage
deriving DecidableEq

/-- Body (after `(?:^|\n)`) of the three boundary patterns, case-sensitive:
`Chapter\s+\d+`, `CHAPTER\s+\d+`, `Ch\.\s*\d+`. -/
def boundaryBody (l : List Char) : Bool :=
  let spaceThenDigit (l2 : List Char) (minS : Nat) : Bool :=
    let s := runLen isPySpace l2
    minS ≤ s &&
      match (l2.drop s).head? with
      | some c => isPyDigit c
      | none => false
  (litStarts "Chapter".data l && spaceThenDigit (l.drop 7) 1) ||
    (litStarts "CHAPTER".data l && spaceThenDigit (l.drop 7) 1) ||
    (litStarts "Ch.".data l && spaceThenDigit (l.drop 3) 0)

/-- Occurrence of a boundary body just after some literal newline. -/
def boundaryAfterNl : List Char → Bool
  | [] => false
  | '\n' :: rest => boundaryBody rest || boundaryAfterNl rest
  | _ :: rest => boundaryAfterNl rest

/-- `LightNovelParser._is_chapter_boundary` (no MULTILINE flag: `^` is only
the start of the whole string). -/
def is_chapter_boundary (l : List Char) : Bool :=
  boundaryBody l || boundaryAfterNl l

/-- `LightNovelParser._extract_title_from_text`: first non-blank line of the
stripped text, itself stripped and truncated to 100 characters. -/
def extract_title_from_text (text : List Char) : String :=
  match (splitOnNl (stripWs text)).find? (fun ln => !(stripWs ln).isEmpty) with
  | some ln => String.mk ((stripWs ln).take 100)
  | none => "Untitled Chapter"

/-- `image_counter[k] += 1` on a dict with default 0 for missing keys,
modelled as a total function. -/
def bumpCounter (f : Int → Nat) (k : Int) : Int → Nat :=
  fun i => if i = k then f k + 1 else f i

/-- Loop state of `_parse_pdf` over pages. -/
structure PdfAcc where
  fullText : List String
  chNum : Int
  curText : List String
  curImgs : List ImageData
  counter : Int → Nat
  chs : List Chapter
  gimgs : List ImageData

/-- Image extraction for one page: each image gets the current chapter number
and the bumped per-chapter counter value; bytes are base64-encoded and the
mime type is `image/{ext}`. -/
def pdfPageImages (chNum : Int) (imgs : List PdfImage)
    (init : List ImageData × (Int → Nat)) : List ImageData × (Int → Nat) :=
  imgs.foldl
    (fun a im =>
      (a.1 ++ [⟨chNum, ((a.2 chNum + 1 : Nat) : Int), b64encode im.image,
        "image/" ++ im.ext⟩], bumpCounter a.2 chNum))
    init

/-- Close out the in-progress chapter buffer. -/
def pdfCloseChapter (chNum : Int) (curText : List String)
    (curImgs : List ImageData) : Chapter :=
  let chContent := pyJoin "\n" curText
  let title := extract_title_from_text chContent.data
  ⟨detect_chapter_number title chNum, title, chContent, curImgs⟩

/-- Per-page step of `_parse_pdf`. -/
def pdfStep (acc : PdfAcc) (page : PdfPage) : PdfAcc :=
  let pr := pdfPageImages acc.chNum page.images ([], acc.counter)
  let newImgs := pr.1
  let counter := pr.2
  let curImgs := acc.curImgs ++ newImgs
  let gimgs := acc.gimgs ++ newImgs
  let curText := acc.curText ++ [page.text]
  let fullText := acc.fullText ++ [page.text]
  if is_chapter_boundary page.text.data then
    { fullText := fullText
      chNum := acc.chNum + 1
      curText := []
      curImgs := []
      counter := counter
      chs :=
        if curText ≠ [] then acc.chs ++ [pdfCloseChapter acc.chNum curText curImgs]
        else acc.chs
      gimgs := gimgs }
  else
    { fullText := fullText
      chNum := acc.chNum
      curText := curText
      curImgs := curImgs
      counter := counter
      chs := acc.chs
      gimgs := gimgs }

/-- `LightNovelParser._parse_pdf` over the library's view of the document. -/
def parse_pdf (pages : List PdfPage) (st : ParserState) : ParserState :=
  let a := pages.foldl pdfStep ⟨[], 1, [], [], fun _ => 0, [], []⟩
  let chs :=
    if a.curText ≠ [] then a.chs ++ [pdfCloseChapter a.chNum a.curText a.curImgs]
    else a.chs
  { content := some (pyJoin "\n\n" a.fullText)
    chapters := st.chapters ++ chs
    images := st.images ++ a.gimgs }

/-! ## EPUB path (`_parse_epub`)

ebooklib/BeautifulSoup are external: a document item is modelled by the text
`get_text(separator='\n', strip=True)` returns, the `src` attributes of its
`<img>` tags in document order (an absent or empty `src` is falsy and
skipped), and the stripped text of its first `h1`/`h2`/`h3` heading, if any;
an image item by its stored name, raw bytes and media type. -/

/-- One EPUB document item as surfaced by the libraries. -/
structure EpubDocItem where
  text : String
  imgSrcs : List String
  heading : Option String
deriving DecidableEq

/-- One EPUB image item as surfaced by the library. -/
structure EpubImageItem where
  name : String
  content : List Nat
  media_type : String
deriving DecidableEq

/-- Image collection for one document item: for each truthy `src`, every
image item whose stored name contains the `src` as a substring yields one
`ImageData` (the inner loop has no break). -/
def epubCollectImages (imgs : List EpubImageItem) (chNum : Int)
    (srcs : List String) (counter : Int → Nat) :
    List ImageData × (Int → Nat) :=
  srcs.foldl
    (fun acc src =>
      if src = "" then acc
      else
        imgs.foldl
          (fun a bi =>
            if containsSub bi.name.data src.data then
              (a.1 ++ [⟨chNum, ((a.2 chNum + 1 : Nat) : Int), b64encode bi.content,
                bi.media_type⟩], bumpCounter a.2 chNum)
            else a)
          acc)
    ([], counter)

/-- Loop state of `_parse_epub` over document items. -/
structure EpubAcc where
  chNum : Int
  counter : Int → Nat
  chs : List Chapter
  gimgs : List ImageData

/-- Per-item step of the EPUB loop. -/
def epubStep (imgs : List EpubImageItem) (acc : EpubAcc) (item : EpubDocItem) :
    EpubAcc :=
  let pr := epubCollectImages imgs acc.chNum item.imgSrcs acc.counter
  let chImgs := pr.1
  let titleText :=
    match item.heading with
    | some t => t
    | none => "Chapter " ++ toString acc.chNum
  let num := detect_chapter_number titleText acc.chNum
  { chNum := acc.chNum + 1
    counter := pr.2
    chs := acc.chs ++ [⟨num, titleText, item.text, chImgs⟩]
    gimgs := acc.gimgs ++ chImgs }

/-- The EPUB accumulation loop over all document items. -/
def epubAccum (items : List EpubDocItem) (imgs : List EpubImageItem) : EpubAcc :=
  items.foldl (epubStep imgs) ⟨1, fun _ => 0, [], []⟩

/-- Chapters accumulated by the EPUB loop, in document order (before the
final sort). -/
def epubRawChapters (items : List EpubDocItem) (imgs : List EpubImageItem) :
    List Chapter :=
  (epubAccum items imgs).chs

/-- Global images accumulated by the EPUB loop. -/
def epubRawImages (items : List EpubDocItem) (imgs : List EpubImageItem) :
    List ImageData :=
  (epubAccum items imgs).gimgs

/-- Comparison used by `self.chapters.sort(key=lambda x: x.number)`. -/
def chapterLE (a b : Chapter) : Prop := a.number ≤ b.number

instance : DecidableRel chapterLE := fun a b => Int.decLe a.number b.number

instance : IsTotal Chapter chapterLE :=
  ⟨fun a b => le_total a.number b.number⟩

instance : IsTrans Chapter chapterLE :=
  ⟨fun _ _ _ h1 h2 => le_trans h1 h2⟩

/-- `LightNovelParser._parse_epub`: accumulate chapters/images, stably sort
`self.chapters` ascending by number (Python `list.sort` is stable;
`insertionSort` realises exactly that specification), then rebuild `content`
from the sorted chapters. -/
def parse_epub (items : List EpubDocItem) (imgs : List EpubImageItem)
    (st : ParserState) : ParserState :=
  let sorted := List.insertionSort chapterLE (st.chapters ++ epubRawChapters items imgs)
  { content :=
      some (pyJoin "\n\n" (sorted.map (fun ch => ch.title ++ "\n\n" ++ ch.content)))
    chapters := sorted
    images := st.images ++ epubRawImages items imgs }

/-! ## `parse()` dispatch -/

/-- The document a parser instance reads, in the already-extracted form the
three format paths consume. -/
inductive FileInput where
  | txtFile (text : String)
  | epubFile (items : List EpubDocItem) (imgs : List EpubImageItem)
  | pdfFile (pages : List PdfPage)

/-- `LightNovelParser.parse`: dispatch on the detected format. -/
def parse : FileInput → ParserState → ParserState
  | .txtFile t, st => parse_txt t st
  | .epubFile items imgs, st => parse_epub items imgs st
  | .pdfFile pages, st => parse_pdf pages st

/-! ## CLI scaffold (`main.py`) -/

/-- `AppConfig` pydantic model. -/
structure AppConfig where
  api_key : Option String
deriving DecidableEq

/-- The `hello` command: output lines in order, and the process exit status.
`geminiKey` is `os.getenv("GEMINI_API_KEY")`.  Python's `if config.api_key:`
is a truthiness test: `None` and the empty string both take the else branch. -/
def hello_output (name : String) (geminiKey : Option String) :
    List String × Nat :=
  let config : AppConfig := ⟨geminiKey⟩
  let third :=
    match config.api_key with
    | some k =>
      if k ≠ "" then "Gemini API Key loaded: " ++ String.mk (k.data.take 8) ++ "..."
      else "No Gemini API key found in .env file"
    | none => "No Gemini API key found in .env file"
  (["Hello " ++ name ++ "!", "Setup verified! ✓", third], 0)

/-! ## Concrete documents used by the claim witnesses -/

/-- The four-marker text document of the repository's test fixture. -/
def sampleTxt : String :=
  "Prologue: The Beginning\n\nThis is the prologue content.\nIt sets up the story.\n\nChapter 1: First Adventure\n\nThis is the first chapter.\nThe hero begins their journey.\n\nChapter 2: The Challenge\n\nThe hero faces their first challenge.\nThey must overcome obstacles.\n\nExtra: Bonus Content\n\nThis is extra content after the main story.\n"

/-- The marker-free text document of the repository's test fixture. -/
def simpleTxt : String :=
  "This is a simple light novel without chapter markers.\nJust plain text content."

/-- A minimal one-marker document. -/
def tinyTxt : String := "Extra: Fun\nMore text."

/-! ## Supporting lemmas -/

lemma litStarts_iff (w h : List Char) : litStarts w h = true ↔ w <+: h := by
  induction w generalizing h with
  | nil => simp [litStarts]
  | cons a as ih =>
    cases h with
    | nil => simp [litStarts]
    | cons b bs =>
      have hstep : litStarts (a :: as) (b :: bs) = (decide (a = b) && litStarts as bs) := rfl
      rw [hstep, Bool.and_eq_true, decide_eq_true_eq, ih, List.cons_prefix_cons]

lemma containsSub_cons (c : Char) (t needle : List Char) :
    containsSub (c :: t) needle = (litStarts needle (c :: t) || containsSub t needle) := by
  rfl

lemma containsSub_iff (hay needle : List Char) :
    containsSub hay needle = true ↔ needle <:+: hay := by
  induction hay with
  | nil =>
    show needle.isEmpty = true ↔ needle <:+: []
    simp [List.isEmpty_iff]
  | cons c t ih =>
    rw [containsSub_cons, List.infix_cons_iff, Bool.or_eq_true, litStarts_iff, ih]

lemma containsSub_of_append (a b c : List Char) :
    containsSub (a ++ b ++ c) b = true := by
  rw [containsSub_iff]
  exact ⟨a, c, by simp⟩

lemma chapterOfMatch_images (text : List Char) (m : TextMatch) (next : Nat) :
    (chapterOfMatch text m next).images = [] := rfl

lemma images_of_mem_zipWith (text : List Char) :
    ∀ (ms : List TextMatch) (ns : List Nat) (ch : Chapter),
      ch ∈ List.zipWith (chapterOfMatch text) ms ns → ch.images = [] := by
  intro ms
  induction ms with
  | nil => simp
  | cons m t ih =>
    intro ns ch h
    cases ns with
    | nil => simp at h
    | cons n nt =>
      simp only [List.zipWith_cons_cons, List.mem_cons] at h
      rcases h with h | h
      · rw [h]
        exact chapterOfMatch_images text m n
      · exact ih nt ch h

lemma pdfPageImages_ok (chNum : Int) (h1 : 1 ≤ chNum) (imgs : List PdfImage) :
    ∀ (init : List ImageData × (Int → Nat)),
      (∀ i ∈ init.1, 1 ≤ i.chapter_num ∧ 1 ≤ i.image_num) →
      ∀ i ∈ (pdfPageImages chNum imgs init).1, 1 ≤ i.chapter_num ∧ 1 ≤ i.image_num := by
  induction imgs with
  | nil => intro init hinit; simpa [pdfPageImages] using hinit
  | cons im rest ih =>
    intro init hinit i hi
    have step :
        pdfPageImages chNum (im :: rest) init =
          pdfPageImages chNum rest
            (init.1 ++ [⟨chNum, ((init.2 chNum + 1 : Nat) : Int), b64encode im.image,
              "image/" ++ im.ext⟩], bumpCounter init.2 chNum) := rfl
    rw [step] at hi
    refine ih _ ?_ i hi
    intro j hj
    rcases List.mem_append.1 hj with hj | hj
    · exact hinit j hj
    · simp only [List.mem_singleton] at hj
      subst hj
      constructor
      · exact h1
      · simp only
        omega

lemma pdfFold_ok (pages : List PdfPage) :
    ∀ (acc : PdfAcc), 1 ≤ acc.chNum →
      (∀ i ∈ acc.gimgs, 1 ≤ i.chapter_num ∧ 1 ≤ i.image_num) →
      1 ≤ (pages.foldl pdfStep acc).chNum ∧
        ∀ i ∈ (pages.foldl pdfStep acc).gimgs, 1 ≤ i.chapter_num ∧ 1 ≤ i.image_num := by
  induction pages with
  | nil => intro acc h1 hg; exact ⟨h1, hg⟩
  | cons page rest ih =>
    intro acc h1 hg
    have hnew : ∀ i ∈ (pdfPageImages acc.chNum page.images ([], acc.counter)).1,
        1 ≤ i.chapter_num ∧ 1 ≤ i.image_num :=
      pdfPageImages_ok acc.chNum h1 page.images ([], acc.counter) (by simp)
    have hgimgs : ∀ i ∈ acc.gimgs ++ (pdfPageImages acc.chNum page.images ([], acc.counter)).1,
        1 ≤ i.chapter_num ∧ 1 ≤ i.image_num := by
      intro i hi
      rcases List.mem_append.1 hi with hi | hi
      · exact hg i hi
      · exact hnew i hi
    simp only [List.foldl_cons]
    refine ih (pdfStep acc page) ?_ ?_
    · unfold pdfStep
      split <;> simp <;> omega
    · unfold pdfStep
      split <;> simpa using hgimgs

lemma filter_orderedInsert (n : Int) (a : Chapter) (l : List Chapter) :
    (List.orderedInsert chapterLE a l).filter (fun c => c.number = n) =
      if a.number = n then a :: l.filter (fun c => c.number = n)
      else l.filter (fun c => c.number = n) := by
  induction l with
  | nil =>
    simp only [List.orderedInsert]
    by_cases h : a.number = n <;> simp [List.filter, h]
  | cons b t ih =>
    by_cases hab : chapterLE a b
    · have : List.orderedInsert chapterLE a (b :: t) = a :: b :: t :=
        List.orderedInsert_of_le _ _ hab
      rw [this]
      by_cases h : a.number = n <;> simp [List.filter_cons, h]
    · have hstep : List.orderedInsert chapterLE a (b :: t) =
          b :: List.orderedInsert chapterLE a t := by
        simp [List.orderedInsert, hab]
      have hb : b.number < a.number := by
        have := hab
        unfold chapterLE at this
        omega
      rw [hstep]
      by_cases h : a.number = n
      · have hbn : ¬ b.number = n := by omega
        simp [List.filter_cons, hbn, ih, h]
      · simp [List.filter_cons, ih, h]

lemma filter_insertionSort (n : Int) (l : List Chapter) :
    (List.insertionSort chapterLE l).filter (fun c => c.number = n) =
      l.filter (fun c => c.number = n) := by
  induction l with
  | nil => rfl
  | cons a t ih =>
    simp only [List.insertionSort]
    rw [filter_orderedInsert]
    by_cases h : a.number = n <;> simp [List.filter_cons, h, ih]

/-! ## Claim theorems -/

/-- Claim C1: constructing a parser over a path that does not exist fails
with a NotFound error; constructing one over an existing path whose
extension, after lowercasing and stripping the leading dot, is not one of
txt, epub, pdf fails with an InvalidInput error whose message names the
offending extension and the three supported values; for every existing path
with one of those three extensions (case-insensitively), construction
succeeds (no file content is consumed: `initParser` takes only the path and
its existence). -/
theorem claim1 (pathExists : Bool) (path : String) :
    (pathExists = false →
      initParser pathExists path = .error (.notFound ("File not found: " ++ path))) ∧
    (pathExists = true →
      detectFormatExt path ≠ "txt".data → detectFormatExt path ≠ "epub".data →
      detectFormatExt path ≠ "pdf".data →
      ∃ msg, initParser pathExists path = .error (.invalidInput msg) ∧
        containsSub msg.data (detectFormatExt path) = true ∧
        containsSub msg.data "txt, epub, pdf".data = true) ∧
    (pathExists = true →
      (detectFormatExt path = "txt".data ∨ detectFormatExt path = "epub".data ∨
        detectFormatExt path = "pdf".data) →
      ∃ fmt, initParser pathExists path = .ok fmt) := by
  refine ⟨?_, ?_, ?_⟩
  · intro h
    subst h
    rfl
  · intro h h1 h2 h3
    subst h
    have hfmt : fileFormatOfExt (detectFormatExt path) = none := by
      unfold fileFormatOfExt
      simp [h1, h2, h3]
    refine ⟨"Unsupported file format: " ++ String.mk (detectFormatExt path) ++
      ". Supported formats: txt, epub, pdf", ?_, ?_, ?_⟩
    · simp [initParser, hfmt]
    · rw [String.data_append, String.data_append]
      exact containsSub_of_append _ _ _
    · rw [containsSub_iff]
      exact ⟨"Unsupported file format: ".data ++ detectFormatExt path ++
        ". Supported formats: ".data, [], by simp [String.data_append]⟩
  · intro h hext
    subst h
    rcases hext with hext | hext | hext
    · refine ⟨.txt, ?_⟩
      have hfmt : fileFormatOfExt (detectFormatExt path) = some .txt := by
        rw [hext]
        decide
      simp [initParser, hfmt]
    · refine ⟨.epub, ?_⟩
      have hfmt : fileFormatOfExt (detectFormatExt path) = some .epub := by
        rw [hext]
        decide
      simp [initParser, hfmt]
    · refine ⟨.pdf, ?_⟩
      have hfmt : fileFormatOfExt (detectFormatExt path) = some .pdf := by
        rw [hext]
        decide
      simp [initParser, hfmt]

/-- Claim C1 witness at concrete inputs: a missing file, an existing `.docx`
file, and an existing `.TXT` file. -/
theorem claim1_witness :
    initParser false "story.txt" = .error (.notFound "File not found: story.txt") ∧
    (∃ msg, initParser true "story.docx" = .error (.invalidInput msg) ∧
      containsSub msg.data (detectFormatExt "story.docx") = true ∧
      containsSub msg.data "txt, epub, pdf".data = true) ∧
    (∃ fmt, initParser true "dir/story.TXT" = .ok fmt) :=
  ⟨(claim1 false "story.txt").1 rfl,
   (claim1 true "story.docx").2.1 rfl (by decide) (by decide) (by decide),
   (claim1 true "dir/story.TXT").2.2 rfl (by decide)⟩

set_option maxRecDepth 100000 in
/-- Claim C2: parsing the text document with the four marker lines
`Prologue: The Beginning`, `Chapter 1: First Adventure`,
`Chapter 2: The Challenge`, `Extra: Bonus Content` (each followed by body
text) yields exactly four chapters numbered 0, 1, 2, -1 in that order, whose
titles are exactly the corresponding marker lines (hence contain the marker
text). -/
theorem claim2 :
    (parse (.txtFile sampleTxt) freshState).chapters.length = 4 ∧
    (parse (.txtFile sampleTxt) freshState).chapters.map Chapter.number = [0, 1, 2, -1] ∧
    (parse (.txtFile sampleTxt) freshState).chapters.map Chapter.title =
      ["Prologue: The Beginning", "Chapter 1: First Adventure",
       "Chapter 2: The Challenge", "Extra: Bonus Content"] := by
  decide

/-- Claim C3: the chapter-number string parser returns the decimal value
when the direct decimal parse succeeds; on failure it computes the
right-to-left subtractive Roman-numeral total of the upper-cased string
(`romanSpecVal` is the spec-side description of that scan) and floors any
non-positive total to 1; and it maps the six sample numerals as listed. -/
theorem claim3 :
    (parse_chapter_number "I" = 1 ∧ parse_chapter_number "V" = 5 ∧
     parse_chapter_number "X" = 10 ∧ parse_chapter_number "IV" = 4 ∧
     parse_chapter_number "IX" = 9 ∧ parse_chapter_number "XIV" = 14) ∧
    (∀ s : String, ∀ v : Int, pyIntParse s = some v → parse_chapter_number s = v) ∧
    (∀ s : String, pyIntParse s = none →
      parse_chapter_number s =
        if 0 < romanSpecVal (pyUpper s.data) then romanSpecVal (pyUpper s.data) else 1) := by
  refine ⟨by decide, ?_, ?_⟩
  · intro s v h
    simp [parse_chapter_number, h]
  · intro s h
    simp only [parse_chapter_number, h, romanLoop_fst_eq_spec]

/-- Claim C3 witness: the decimal branch at `"12"` and the Roman branch at
`"MCMXC"`. -/
theorem claim3_witness :
    parse_chapter_number "12" = 12 ∧
    parse_chapter_number "MCMXC" =
      (if 0 < romanSpecVal (pyUpper ("MCMXC" : String).data)
       then romanSpecVal (pyUpper ("MCMXC" : String).data) else 1) :=
  ⟨claim3.2.1 "12" 12 (by decide), claim3.2.2 "MCMXC" (by decide)⟩

/-- Claim C4: the title-based chapter-number detector returns 0 when the
lowercased title contains a prologue keyword; otherwise -1 when it contains
an extra keyword; otherwise the number following a `chapter`/`ch.` token;
otherwise the first standalone decimal number of the title; otherwise the
supplied default. -/
theorem claim4 (title : String) (dflt : Int) :
    (titleHasProlog (pyLower title.data) = true →
      detect_chapter_number title dflt = 0) ∧
    (titleHasProlog (pyLower title.data) = false →
      titleHasExtra (pyLower title.data) = true →
      detect_chapter_number title dflt = -1) ∧
    (∀ n : Nat, titleHasProlog (pyLower title.data) = false →
      titleHasExtra (pyLower title.data) = false →
      searchChapterTok (pyLower title.data) = some n →
      detect_chapter_number title dflt = n) ∧
    (∀ n : Nat, titleHasProlog (pyLower title.data) = false →
      titleHasExtra (pyLower title.data) = false →
      searchChapterTok (pyLower title.data) = none →
      searchStandaloneNum title.data = some n →
      detect_chapter_number title dflt = n) ∧
    (titleHasProlog (pyLower title.data) = false →
      titleHasExtra (pyLower title.data) = false →
      searchChapterTok (pyLower title.data) = none →
      searchStandaloneNum title.data = none →
      detect_chapter_number title dflt = dflt) := by
  refine ⟨?_, ?_, ?_, ?_, ?_⟩
  · intro h1
    simp [detect_chapter_number, h1]
  · intro h1 h2
    simp [detect_chapter_number, h1, h2]
  · intro n h1 h2 h3
    simp [detect_chapter_number, h1, h2, h3]
  · intro n h1 h2 h3 h4
    simp [detect_chapter_number, h1, h2, h3, h4]
  · intro h1 h2 h3 h4
    simp [detect_chapter_number, h1, h2, h3, h4]

/-- Claim C4 witness: one concrete title per branch, including the claim's
example `detect("Some Random Title", 42) == 42`. -/
theorem claim4_witness :
    detect_chapter_number "Prologue: Start" 99 = 0 ∧
    detect_chapter_number "Extra: Bonus" 99 = -1 ∧
    detect_chapter_number "Ch. 10" 99 = 10 ∧
    detect_chapter_number "Volume 3 notes" 99 = 3 ∧
    detect_chapter_number "Some Random Title" 42 = 42 :=
  ⟨(claim4 "Prologue: Start" 99).1 (by decide),
   (claim4 "Extra: Bonus" 99).2.1 (by decide) (by decide),
   (claim4 "Ch. 10" 99).2.2.1 10 (by decide) (by decide) (by decide),
   (claim4 "Volume 3 notes" 99).2.2.2.1 3 (by decide) (by decide) (by decide) (by decide),
   (claim4 "Some Random Title" 42).2.2.2.2 (by decide) (by decide) (by decide) (by decide)⟩

/-- Claim C5: a second `parse()` on the same text-file parser instance
appends the detected chapters again instead of replacing them — after two
calls on a fresh instance the chapter list is the detected list twice (2k
chapters for k detected) — and the images list is likewise only appended to
(the text path appends nothing). -/
theorem claim5 (fileText : String) :
    (parse (.txtFile fileText) (parse (.txtFile fileText) freshState)).chapters =
      (parse (.txtFile fileText) freshState).chapters ++
        detectChaptersInText fileText.data ∧
    (parse (.txtFile fileText) (parse (.txtFile fileText) freshState)).chapters.length =
      2 * (detectChaptersInText fileText.data).length ∧
    (parse (.txtFile fileText) (parse (.txtFile fileText) freshState)).images =
      (parse (.txtFile fileText) freshState).images := by
  refine ⟨rfl, ?_, rfl⟩
  simp [parse, parse_txt, freshState]
  omega

/-- Claim C6: every image the PDF parse path produces has
`chapter_num ≥ 1` and `image_num ≥ 1`. -/
theorem claim6 (pages : List PdfPage) :
    ∀ img ∈ (parse (.pdfFile pages) freshState).images,
      1 ≤ img.chapter_num ∧ 1 ≤ img.image_num := by
  intro img hmem
  have h := pdfFold_ok pages ⟨[], 1, [], [], fun _ => 0, [], []⟩ (by norm_num) (by simp)
  have heq : (parse (.pdfFile pages) freshState).images =
      (pages.foldl pdfStep ⟨[], 1, [], [], fun _ => 0, [], []⟩).gimgs := by
    simp [parse, parse_pdf, freshState]
  rw [heq] at hmem
  exact h.2 img hmem

/-- Claim C6 witness: a one-page PDF with one embedded image yields the
image `ch1_img1` with both numbers equal to 1. -/
theorem claim6_witness :
    (ImageData.mk 1 1 "AAEC" "image/png") ∈
      (parse (.pdfFile [⟨"Page one", [⟨[0, 1, 2], "png"⟩]⟩]) freshState).images ∧
    1 ≤ (ImageData.mk 1 1 "AAEC" "image/png").chapter_num ∧
    1 ≤ (ImageData.mk 1 1 "AAEC" "image/png").image_num :=
  ⟨by decide, claim6 [⟨"Page one", [⟨[0, 1, 2], "png"⟩]⟩] ⟨1, 1, "AAEC", "image/png"⟩ (by decide)⟩

/-- Claim C7: parsing a text document in which none of the three marker
patterns matches yields zero chapters while `content` equals the full file
text unchanged. -/
theorem claim7 (fileText : String) (h : textMatches fileText.data = []) :
    parse (.txtFile fileText) freshState =
      { content := some fileText, chapters := [], images := [] } := by
  have hdet : detectChaptersInText fileText.data = [] := by
    unfold detectChaptersInText
    rw [h]
    rfl
  simp [parse, parse_txt, freshState, hdet]

/-- Claim C7 witness: the marker-free fixture document. -/
theorem claim7_witness :
    textMatches simpleTxt.data = [] ∧
    parse (.txtFile simpleTxt) freshState =
      { content := some simpleTxt, chapters := [], images := [] } :=
  ⟨by decide, claim7 simpleTxt (by decide)⟩

/-- Claim C8: after the EPUB parse path processes all document items the
chapter list is sorted ascending by resolved number, stably — for every
number, the chapters carrying it appear exactly as in document order — and
the final content is the blank-line-separated join, in sorted order, of each
chapter's title followed by a blank line and its body. -/
theorem claim8 (items : List EpubDocItem) (imgs : List EpubImageItem) :
    List.Pairwise (fun a b : Chapter => a.number ≤ b.number)
      (parse (.epubFile items imgs) freshState).chapters ∧
    (∀ n : Int,
      (parse (.epubFile items imgs) freshState).chapters.filter
          (fun c => c.number = n) =
        (epubRawChapters items imgs).filter (fun c => c.number = n)) ∧
    (parse (.epubFile items imgs) freshState).content =
      some (pyJoin "\n\n" ((parse (.epubFile items imgs) freshState).chapters.map
        (fun ch => ch.title ++ "\n\n" ++ ch.content))) := by
  have hch : (parse (.epubFile items imgs) freshState).chapters =
      List.insertionSort chapterLE (epubRawChapters items imgs) := by
    simp [parse, parse_epub, freshState]
  refine ⟨?_, ?_, ?_⟩
  · rw [hch]
    exact List.sorted_insertionSort chapterLE _
  · intro n
    rw [hch, filter_insertionSort]
  · simp [parse, parse_epub, freshState]

/-- Claim C9 counterexample: with `GEMINI_API_KEY` present in the
environment but empty, the key is present yet the command prints the
"no key found" notice, not the first 8 characters of the key followed by an
ellipsis — so the claim's present/absent dichotomy fails as stated. -/
theorem claim9_counterexample :
    (some "" : Option String).isSome = true ∧
    (hello_output "World" (some "")).1 =
      ["Hello World!", "Setup verified! ✓", "No Gemini API key found in .env file"] ∧
    "No Gemini API key found in .env file" ≠
      "Gemini API Key loaded: " ++ String.mk (("" : String).data.take 8) ++ "..." := by
  refine ⟨rfl, rfl, by decide⟩

/-- Claim C9 (amended): for every name and environment the `hello` command
prints `Hello {name}!`, then `Setup verified! ✓`, then the first up-to-8
characters of the key followed by an ellipsis when the key is present and
nonempty, or the "no key found" notice when it is absent or empty, and
always exits with status 0. -/
theorem claim9_amended (name : String) (geminiKey : Option String) :
    (hello_output name geminiKey).2 = 0 ∧
    (hello_output name geminiKey).1.length = 3 ∧
    (hello_output name geminiKey).1[0]? = some ("Hello " ++ name ++ "!") ∧
    (hello_output name geminiKey).1[1]? = some "Setup verified! ✓" ∧
    (∀ k, geminiKey = some k → k ≠ "" →
      (hello_output name geminiKey).1[2]? =
        some ("Gemini API Key loaded: " ++ String.mk (k.data.take 8) ++ "...")) ∧
    ((geminiKey = none ∨ geminiKey = some "") →
      (hello_output name geminiKey).1[2]? =
        some "No Gemini API key found in .env file") := by
  refine ⟨rfl, rfl, rfl, rfl, ?_, ?_⟩
  · intro k hk hne
    subst hk
    simp [hello_output, hne]
  · intro h
    rcases h with h | h <;> subst h <;> simp [hello_output]

/-- Claim C9 witness: a nonempty key and an absent key. -/
theorem claim9_witness :
    (hello_output "Alice" (some "secretkey123")).1[2]? =
      some ("Gemini API Key loaded: " ++
        String.mk (("secretkey123" : String).data.take 8) ++ "...") ∧
    (hello_output "World" none).1[2]? =
      some "No Gemini API key found in .env file" :=
  ⟨(claim9_amended "Alice" (some "secretkey123")).2.2.2.2.1 "secretkey123" rfl (by decide),
   (claim9_amended "World" none).2.2.2.2.2 (Or.inl rfl)⟩

/-- Claim C10: the text-format parse path never produces images — the
global images list is left unchanged, the chapter list only grows by the
detected chapters, and every appended chapter has an empty images list. -/
theorem claim10 (fileText : String) (st : ParserState) :
    (parse (.txtFile fileText) st).images = st.images ∧
    (parse (.txtFile fileText) st).chapters =
      st.chapters ++ detectChaptersInText fileText.data ∧
    ∀ ch ∈ detectChaptersInText fileText.data, ch.images = [] := by
  refine ⟨rfl, rfl, ?_⟩
  intro ch h
  unfold detectChaptersInText at h
  exact images_of_mem_zipWith fileText.data _ _ ch h

/-- Claim C10 witness: a one-marker document on a fresh instance. -/
theorem claim10_witness :
    (parse (.txtFile tinyTxt) freshState).images = freshState.images ∧
    (Chapter.mk (-1) "Extra: Fun" "Extra: Fun\nMore text." []).images = [] :=
  ⟨(claim10 tinyTxt freshState).1,
   (claim10 tinyTxt freshState).2.2 (Chapter.mk (-1) "Extra: Fun" "Extra: Fun\nMore text." [])
     (by decide)⟩

end LnVis
